import Mathlib

/-
Verification of the AMS matrix-processing engine (ams/core/matprocessor.py):
the MParam value container and the MatProcessor matrix builder that turn a
network topology into the DC power-flow matrices Cg, Cl, Csh, Cft, CftT,
Bbus, Bf, Pbusinj and Pfinj.

Numeric values are modelled as exact rationals.  A scipy sparse matrix built
from coordinate triplets is modelled by its dense content: entry (i, j) is
the sum of the data values of all triplets with row i and column j, which is
exactly the duplicate-summing semantics of csr_matrix((data, (row, col))).
Device identifiers are modelled by their dense 0-based positions, so the
idx2uid lookup of a bus reference succeeds exactly when the reference is
below the bus count.
-/

namespace AMS

/-- Dense rational matrix as a list of rows, modelling a numpy 2-D array. -/
abbrev Mat := List (List ℚ)

namespace Mat

/-- Entry (i, j) of a dense matrix, 0 outside the stored rows and columns. -/
def get (A : Mat) (i j : Nat) : ℚ := (A.getD i []).getD j 0

end Mat

/-- Value of entry (i, j) of a coordinate-triplet sparse matrix: scipy
csr_matrix sums the data of duplicate (row, col) pairs. -/
def cooVal (tr : List (Nat × Nat × ℚ)) (i j : Nat) : ℚ :=
  ((tr.filter (fun t => decide (t.1 = i ∧ t.2.1 = j))).map (fun t => t.2.2)).sum

/-- Densification of a coordinate-triplet sparse matrix of shape (m, n). -/
def cooToDense (m n : Nat) (tr : List (Nat × Nat × ℚ)) : Mat :=
  (List.range m).map (fun i => (List.range n).map (fun j => cooVal tr i j))

/-- Transpose of a matrix of shape (m, n), modelling the scipy .T transform. -/
def transposeMat (m n : Nat) (A : Mat) : Mat :=
  (List.range n).map (fun i => (List.range m).map (fun j => Mat.get A j i))

/-- Product of an (m, k) matrix with a (k, n) matrix. -/
def mulMat (m k n : Nat) (A B : Mat) : Mat :=
  (List.range m).map (fun i =>
    (List.range n).map (fun j =>
      ((List.range k).map (fun l => Mat.get A i l * Mat.get B l j)).sum))

/-- Product of an (m, k) matrix with a vector of length k. -/
def mulVec (m k : Nat) (A : Mat) (v : List ℚ) : List ℚ :=
  (List.range m).map (fun i =>
    ((List.range k).map (fun l => Mat.get A i l * v.getD l 0)).sum)

/-- Line (branch) record of the topology collaborator: from bus and to bus
as dense bus positions, series resistance r, series reactance x, charging b,
tap ratio, phase shift phi, and the numeric in-service flag u. -/
structure Line where
  bus1 : Nat
  bus2 : Nat
  r : ℚ
  x : ℚ
  b : ℚ
  tap : ℚ
  phi : ℚ
  u : ℚ
  deriving DecidableEq, Repr

/-- Single-bus device record (generator, load or shunt): hosting bus as a
dense bus position and the numeric in-service flag u. -/
structure Device where
  bus : Nat
  u : ℚ
  deriving DecidableEq, Repr

/-- Topology snapshot: bus count and the device tables, each in its native
order so a device position is its dense column index. -/
structure System where
  nb : Nat
  lines : List Line
  gens : List Device
  loads : List Device
  shunts : List Device
  deriving DecidableEq, Repr

def defaultLine : Line := ⟨0, 0, 0, 0, 0, 0, 0, 0⟩

/-- Line record at position i of the line table. -/
def lineAt (s : System) (i : Nat) : Line := s.lines.getD i defaultLine

/-- Series susceptance of one line as computed in MatProcessor._makeBdc:
b = u / x, then divided by the tap ratio where a stored tap of zero is
replaced by 1.0 beforehand. -/
def lineB (ln : Line) : ℚ := (ln.u / ln.x) / (if ln.tap = 0 then 1 else ln.tap)

/-- Coordinate triplets of the Bf matrix in _makeBdc: row indices are the
line positions repeated twice, columns the from buses then the to buses,
data the susceptances then their negations. -/
def bfTriplets (s : System) : List (Nat × Nat × ℚ) :=
  ((List.range s.lines.length).map
    (fun i => (i, (lineAt s i).bus1, lineB (lineAt s i)))) ++
  ((List.range s.lines.length).map
    (fun i => (i, (lineAt s i).bus2, -(lineB (lineAt s i)))))

/-- Branch susceptance matrix Bf of shape (nl, nb) built in _makeBdc. -/
def makeBf (s : System) : Mat :=
  cooToDense s.lines.length s.nb (bfTriplets s)

/-- Coordinate triplets of the local Cft rebuilt inside _makeBdc: every
line contributes +1 at its from bus and -1 at its to bus, with no
in-service filtering. -/
def cftLocalTriplets (s : System) : List (Nat × Nat × ℚ) :=
  ((List.range s.lines.length).map
    (fun i => (i, (lineAt s i).bus1, (1 : ℚ)))) ++
  ((List.range s.lines.length).map
    (fun i => (i, (lineAt s i).bus2, (-1 : ℚ))))

/-- Local line incidence matrix of shape (nl, nb) rebuilt inside _makeBdc. -/
def makeCftLocal (s : System) : Mat :=
  cooToDense s.lines.length s.nb (cftLocalTriplets s)

/-- Bus susceptance matrix Bbus = CftLocal.T * Bf, shape (nb, nb). -/
def makeBbus (s : System) : Mat :=
  mulMat s.nb s.lines.length s.nb
    (transposeMat s.lines.length s.nb (makeCftLocal s)) (makeBf s)

/-- Branch phase-shift injection vector Pfinj = b * (-phi), one entry per
line. -/
def makePfinj (s : System) : List ℚ :=
  s.lines.map (fun ln => lineB ln * (-ln.phi))

/-- Bus injection vector Pbusinj = CftLocal.T * Pfinj, length nb. -/
def makePbusinj (s : System) : List ℚ :=
  mulVec s.nb s.lines.length
    (transposeMat s.lines.length s.nb (makeCftLocal s)) (makePfinj s)

/-- Single-bus incidence builder shared by build_cg, build_cl and build_csh:
positions with a nonzero in-service flag contribute the triplet
(bus, position, 1); the matrix has shape (nb, device count). -/
def buildC (nb : Nat) (devs : List Device) : Mat :=
  cooToDense nb devs.length
    ((List.range devs.length).filterMap (fun p =>
      let d := devs.getD p ⟨0, 0⟩
      if d.u ≠ 0 then some (d.bus, p, (1 : ℚ)) else none))

/-- Generator incidence matrix Cg of build_cg. -/
def makeCg (s : System) : Mat := buildC s.nb s.gens

/-- Load incidence matrix Cl of build_cl. -/
def makeCl (s : System) : Mat := buildC s.nb s.loads

/-- Shunt incidence matrix Csh of build_csh. -/
def makeCsh (s : System) : Mat := buildC s.nb s.shunts

/-- Coordinate triplets of the stored Cft in build_cft: only in-service
lines contribute, +1 at the from bus and -1 at the to bus, in the column of
the line position. -/
def cftTriplets (s : System) : List (Nat × Nat × ℚ) :=
  ((List.range s.lines.length).filterMap (fun p =>
    if (lineAt s p).u ≠ 0 then some ((lineAt s p).bus1, p, (1 : ℚ)) else none)) ++
  ((List.range s.lines.length).filterMap (fun p =>
    if (lineAt s p).u ≠ 0 then some ((lineAt s p).bus2, p, (-1 : ℚ)) else none))

/-- Stored line incidence matrix Cft of shape (nb, nl) built in build_cft. -/
def makeCft (s : System) : Mat :=
  cooToDense s.nb s.lines.length (cftTriplets s)

/-- Stored transpose CftT = Cft.T of shape (nl, nb) built in build_cft. -/
def makeCftT (s : System) : Mat :=
  transposeMat s.nb s.lines.length (makeCft s)

lemma cooVal_append (a b : List (Nat × Nat × ℚ)) (i j : Nat) :
    cooVal (a ++ b) i j = cooVal a i j + cooVal b i j := by
  simp [cooVal, List.filter_append]

lemma cooVal_nil (i j : Nat) : cooVal [] i j = 0 := by simp [cooVal]

lemma cooVal_singleton (a r : Nat) (q : ℚ) (i j : Nat) :
    cooVal [(a, r, q)] i j = if a = i ∧ r = j then q else 0 := by
  simp only [cooVal, List.filter]
  split_ifs with h
  · simp only [decide_eq_true_eq] at *
    simp [h]
  · simp only [decide_eq_true_eq] at *
    rcases Decidable.em (a = i ∧ r = j) with h2 | h2
    · exact absurd h2 h
    · simp [List.filter, h2]

lemma Mat.get_cooToDense (m n : Nat) (tr : List (Nat × Nat × ℚ)) (i j : Nat)
    (hi : i < m) (hj : j < n) :
    Mat.get (cooToDense m n tr) i j = cooVal tr i j := by
  have hrow : (cooToDense m n tr).getD i [] =
      (List.range n).map (fun j => cooVal tr i j) := by
    unfold cooToDense
    rw [List.getD_eq_getElem _ _ (by simpa using hi), List.getElem_map,
      List.getElem_range]
  unfold Mat.get
  rw [hrow, List.getD_eq_getElem _ _ (by simpa using hj), List.getElem_map,
    List.getElem_range]

lemma cooVal_range_map_row (n : Nat) (c : Nat → Nat) (v : Nat → ℚ) (i j : Nat) :
    cooVal ((List.range n).map (fun k => (k, c k, v k))) i j =
      if i < n ∧ c i = j then v i else 0 := by
  induction n with
  | zero => simp [cooVal]
  | succ n ih =>
      rw [List.range_succ, List.map_append, cooVal_append, ih]
      simp only [List.map_cons, List.map_nil, cooVal_singleton]
      rcases Nat.lt_trichotomy i n with hlt | heq | hgt
      · have h1 : ¬ n = i := by omega
        have h2 : i < n + 1 := by omega
        simp [h1, hlt, h2]
      · subst heq
        simp [Nat.lt_irrefl, Nat.lt_succ_self]
      · have h1 : ¬ i < n := by omega
        have h2 : ¬ i < n + 1 := by omega
        have h3 : ¬ n = i := by omega
        simp [h1, h2, h3]

lemma cooVal_range_filterMap_col (n : Nat) (P : Nat → Prop) [DecidablePred P]
    (r : Nat → Nat) (w : Nat → ℚ) (i j : Nat) :
    cooVal ((List.range n).filterMap
      (fun p => if P p then some (r p, p, w p) else none)) i j =
      if j < n ∧ P j ∧ r j = i then w j else 0 := by
  induction n with
  | zero => simp [cooVal]
  | succ n ih =>
      rw [List.range_succ, List.filterMap_append, cooVal_append, ih]
      have hsing : cooVal (List.filterMap
          (fun p => if P p then some (r p, p, w p) else none) [n]) i j =
          if P n ∧ r n = i ∧ n = j then w n else 0 := by
        by_cases hP : P n
        · have he : List.filterMap
              (fun p => if P p then some (r p, p, w p) else none) [n] =
              [(r n, n, w n)] := by
            simp [List.filterMap_cons, hP]
          rw [he, cooVal_singleton]
          simp [hP]
        · have he : List.filterMap
              (fun p => if P p then some (r p, p, w p) else none) [n] =
              [] := by
            simp [List.filterMap_cons, hP]
          rw [he, cooVal_nil]
          simp [hP]
      rw [hsing]
      rcases Nat.lt_trichotomy j n with hlt | heq | hgt
      · have h1 : ¬ n = j := by omega
        have h2 : j < n + 1 := by omega
        simp [h1, hlt, h2]
      · subst heq
        simp only [Nat.lt_irrefl, false_and, if_false, zero_add,
          Nat.lt_succ_self, true_and]
        simp
      · have h1 : ¬ j < n := by omega
        have h2 : ¬ j < n + 1 := by omega
        have h3 : ¬ n = j := by omega
        simp [h1, h2, h3]

lemma Mat.get_transposeMat (m n : Nat) (A : Mat) (i j : Nat)
    (hi : i < n) (hj : j < m) :
    Mat.get (transposeMat m n A) i j = Mat.get A j i := by
  have hrow : (transposeMat m n A).getD i [] =
      (List.range m).map (fun j => Mat.get A j i) := by
    unfold transposeMat
    rw [List.getD_eq_getElem _ _ (by simpa using hi), List.getElem_map,
      List.getElem_range]
  unfold Mat.get
  rw [hrow, List.getD_eq_getElem _ _ (by simpa using hj), List.getElem_map,
    List.getElem_range]
  rfl

lemma cooToDense_length (m n : Nat) (tr : List (Nat × Nat × ℚ)) :
    (cooToDense m n tr).length = m := by simp [cooToDense]

lemma cooToDense_row_length (m n : Nat) (tr : List (Nat × Nat × ℚ)) :
    ∀ row ∈ cooToDense m n tr, row.length = n := by
  intro row hrow
  simp only [cooToDense, List.mem_map] at hrow
  obtain ⟨i, _, hi⟩ := hrow
  simp [← hi]

lemma transposeMat_length (m n : Nat) (A : Mat) :
    (transposeMat m n A).length = n := by simp [transposeMat]

lemma transposeMat_row_length (m n : Nat) (A : Mat) :
    ∀ row ∈ transposeMat m n A, row.length = m := by
  intro row hrow
  simp only [transposeMat, List.mem_map] at hrow
  obtain ⟨i, _, hi⟩ := hrow
  simp [← hi]

/-- Entry formula for the Bf matrix: row i collects the two triplets of
line i, one at the from bus with value b and one at the to bus with value
-b; duplicate positions, as in any coordinate sparse matrix, sum. -/
lemma Mat.get_makeBf (s : System) (i j : Nat)
    (hi : i < s.lines.length) (hj : j < s.nb) :
    Mat.get (makeBf s) i j =
      (if (lineAt s i).bus1 = j then lineB (lineAt s i) else 0) +
      (if (lineAt s i).bus2 = j then -(lineB (lineAt s i)) else 0) := by
  rw [makeBf, Mat.get_cooToDense _ _ _ _ _ hi hj, bfTriplets, cooVal_append,
    cooVal_range_map_row, cooVal_range_map_row]
  simp [hi]

/-- Entry formula for the shared single-bus incidence builder. -/
lemma Mat.get_buildC (nb : Nat) (devs : List Device) (i j : Nat)
    (hi : i < nb) (hj : j < devs.length) :
    Mat.get (buildC nb devs) i j =
      if (devs.getD j ⟨0, 0⟩).u ≠ 0 ∧ (devs.getD j ⟨0, 0⟩).bus = i then 1
      else 0 := by
  rw [buildC, Mat.get_cooToDense _ _ _ _ _ hi hj]
  rw [cooVal_range_filterMap_col devs.length
    (fun p => (devs.getD p ⟨0, 0⟩).u ≠ 0)
    (fun p => (devs.getD p ⟨0, 0⟩).bus) (fun _ => (1 : ℚ)) i j]
  simp [hj]

/-- Entry formula for the stored Cft: column p collects the two triplets of
an in-service line p, and is all zero for an out-of-service line. -/
lemma Mat.get_makeCft (s : System) (i j : Nat)
    (hi : i < s.nb) (hj : j < s.lines.length) :
    Mat.get (makeCft s) i j =
      (if (lineAt s j).u ≠ 0 ∧ (lineAt s j).bus1 = i then 1 else 0) +
      (if (lineAt s j).u ≠ 0 ∧ (lineAt s j).bus2 = i then -1 else 0) := by
  rw [makeCft, Mat.get_cooToDense _ _ _ _ _ hi hj, cftTriplets, cooVal_append]
  rw [cooVal_range_filterMap_col s.lines.length
    (fun p => (lineAt s p).u ≠ 0) (fun p => (lineAt s p).bus1)
    (fun _ => (1 : ℚ)) i j]
  rw [cooVal_range_filterMap_col s.lines.length
    (fun p => (lineAt s p).u ≠ 0) (fun p => (lineAt s p).bus2)
    (fun _ => (-1 : ℚ)) i j]
  simp [hj]

/-- Worked 3-bus example of the spec: two in-service lines, positions 0 and
1, from bus 0 to bus 1 with x = 1/10 and from bus 1 to bus 2 with x = 1/5,
both with stored tap 0 and phase shift 0. -/
def sys3 : System :=
  { nb := 3
    lines := [⟨0, 1, 0, 1/10, 0, 0, 0, 1⟩, ⟨1, 2, 0, 1/5, 0, 0, 0, 1⟩]
    gens := []
    loads := []
    shunts := [] }

/-- C1: for the worked 3-bus example the DC build yields Bf with rows
[10, -10, 0] and [0, 5, -5], Bbus = [[10, -10, 0], [-10, 15, -5],
[0, -5, 5]], Pfinj = [0, 0] and Pbusinj = [0, 0, 0]. -/
theorem c1_worked_example :
    makeBf sys3 = [[10, -10, 0], [0, 5, -5]] ∧
    makeBbus sys3 = [[10, -10, 0], [-10, 15, -5], [0, -5, 5]] ∧
    makePfinj sys3 = [0, 0] ∧
    makePbusinj sys3 = [0, 0, 0] := by
  refine ⟨?_, ?_, ?_, ?_⟩ <;>
    norm_num [makeBf, makeBbus, makePfinj, makePbusinj, makeCftLocal, mulMat,
      mulVec, transposeMat, Mat.get, cooToDense, cooVal, bfTriplets,
      cftLocalTriplets, lineAt, lineB, sys3, defaultLine, List.range_succ,
      List.filter]

/-- Degenerate topology with a single self-loop line: from bus and to bus
are both bus 0, x = 1, tap 0, in service, so its series susceptance is 1. -/
def sysLoop : System :=
  { nb := 1
    lines := [⟨0, 0, 0, 1, 0, 0, 0, 1⟩]
    gens := []
    loads := []
    shunts := [] }

/-- C2 counterexample: for the self-loop line of sysLoop the susceptance is
1, yet the Bf entry in row 0 at the from-bus column is 0, because the +b
and -b coordinate triplets land on the same column and are summed by the
sparse constructor; the claimed value +b does not appear in the row. -/
theorem c2_counterexample :
    lineB (lineAt sysLoop 0) = 1 ∧
    (lineAt sysLoop 0).bus1 = 0 ∧
    Mat.get (makeBf sysLoop) 0 0 = 0 := by
  refine ⟨?_, ?_, ?_⟩ <;>
    norm_num [makeBf, cooToDense, cooVal, bfTriplets, lineAt, lineB, sysLoop,
      defaultLine, Mat.get, List.range_succ, List.filter]

/-- C2 amended: for every topology and every line i whose from bus and to
bus are distinct and in range, row i of Bf holds +b at the from-bus column,
-b at the to-bus column and zero elsewhere, with b = (u / x) divided by the
tap ratio after a stored tap of zero is replaced by 1.0; consequently a
stored tap of 0 gives exactly the susceptance of a tap of 1.  For a
self-loop line the two entries collapse onto one column and sum to zero. -/
theorem c2_bf_row_structure (s : System) (i : Nat)
    (hi : i < s.lines.length)
    (h1 : (lineAt s i).bus1 < s.nb) (h2 : (lineAt s i).bus2 < s.nb)
    (hne : (lineAt s i).bus1 ≠ (lineAt s i).bus2) :
    Mat.get (makeBf s) i (lineAt s i).bus1 = lineB (lineAt s i) ∧
    Mat.get (makeBf s) i (lineAt s i).bus2 = -(lineB (lineAt s i)) ∧
    (∀ j, j < s.nb → j ≠ (lineAt s i).bus1 → j ≠ (lineAt s i).bus2 →
      Mat.get (makeBf s) i j = 0) ∧
    lineB { lineAt s i with tap := 0 } = lineB { lineAt s i with tap := 1 } := by
  refine ⟨?_, ?_, ?_, ?_⟩
  · rw [Mat.get_makeBf s i _ hi h1]
    rw [if_pos rfl, if_neg (Ne.symm hne)]
    ring
  · rw [Mat.get_makeBf s i _ hi h2]
    rw [if_pos rfl, if_neg hne]
    ring
  · intro j hj hj1 hj2
    rw [Mat.get_makeBf s i j hi hj]
    have hb1 : ¬ (lineAt s i).bus1 = j := fun h => hj1 (Eq.symm h)
    have hb2 : ¬ (lineAt s i).bus2 = j := fun h => hj2 (Eq.symm h)
    rw [if_neg hb1, if_neg hb2]
    ring
  · simp [lineB]

/-- C2 witness: the amended row-structure theorem applied to line 0 of the
worked 3-bus example, read off at the three concrete columns. -/
theorem c2_bf_row_structure_witness :
    Mat.get (makeBf sys3) 0 0 = lineB (lineAt sys3 0) ∧
    Mat.get (makeBf sys3) 0 1 = -(lineB (lineAt sys3 0)) ∧
    Mat.get (makeBf sys3) 0 2 = 0 ∧
    lineB { lineAt sys3 0 with tap := 0 } = lineB { lineAt sys3 0 with tap := 1 } := by
  have h := c2_bf_row_structure sys3 0 (by simp [sys3]) (by simp [sys3, lineAt])
    (by simp [sys3, lineAt]) (by simp [sys3, lineAt])
  have hb1 : (lineAt sys3 0).bus1 = 0 := by simp [sys3, lineAt]
  have hb2 : (lineAt sys3 0).bus2 = 1 := by simp [sys3, lineAt]
  refine ⟨?_, ?_, ?_, h.2.2.2⟩
  · have h1 := h.1
    rwa [hb1] at h1
  · have h2 := h.2.1
    rwa [hb2] at h2
  · exact h.2.2.1 2 (by simp [sys3]) (by rw [hb1]; omega) (by rw [hb2]; omega)

/-- Spec invariant on one single-bus incidence matrix: shape (nb, count),
an in-service device column holds exactly one nonzero entry, equal to 1,
in the row of the hosting bus, and an out-of-service device column is all
zero. -/
def incidenceOk (nb : Nat) (devs : List Device) (C : Mat) : Prop :=
  C.length = nb ∧ (∀ row ∈ C, row.length = devs.length) ∧
  ∀ p, p < devs.length →
    ((devs.getD p ⟨0, 0⟩).u ≠ 0 →
      (devs.getD p ⟨0, 0⟩).bus < nb ∧
      Mat.get C (devs.getD p ⟨0, 0⟩).bus p = 1 ∧
      (∀ i, i < nb → i ≠ (devs.getD p ⟨0, 0⟩).bus → Mat.get C i p = 0)) ∧
    ((devs.getD p ⟨0, 0⟩).u = 0 → ∀ i, i < nb → Mat.get C i p = 0)

/-- Validity of the bus references of a device table. -/
def devsValid (nb : Nat) (devs : List Device) : Prop :=
  ∀ d ∈ devs, d.bus < nb

lemma buildC_incidenceOk (nb : Nat) (devs : List Device)
    (hv : devsValid nb devs) : incidenceOk nb devs (buildC nb devs) := by
  refine ⟨cooToDense_length _ _ _, cooToDense_row_length _ _ _, ?_⟩
  intro p hp
  have hbus : (devs.getD p ⟨0, 0⟩).bus < nb := by
    have hmem : devs.getD p ⟨0, 0⟩ ∈ devs := by
      rw [List.getD_eq_getElem _ _ hp]
      exact List.getElem_mem hp
    exact hv _ hmem
  constructor
  · intro hu
    refine ⟨hbus, ?_, ?_⟩
    · rw [Mat.get_buildC nb devs _ p hbus hp, if_pos ⟨hu, rfl⟩]
    · intro i hi hne
      rw [Mat.get_buildC nb devs i p hi hp,
        if_neg (fun hc => hne (Eq.symm hc.2))]
  · intro hu i hi
    rw [Mat.get_buildC nb devs i p hi hp, if_neg (fun hc => hc.1 hu)]

/-- C3: each of Cg, Cl and Csh has shape (bus count, device count), every
column of an in-service device holds a single nonzero entry, equal to 1, at
the row of the dense position of its hosting bus, and every column of an
out-of-service device is all zero. -/
theorem c3_incidence_structure (s : System)
    (hg : devsValid s.nb s.gens) (hl : devsValid s.nb s.loads)
    (hsh : devsValid s.nb s.shunts) :
    incidenceOk s.nb s.gens (makeCg s) ∧
    incidenceOk s.nb s.loads (makeCl s) ∧
    incidenceOk s.nb s.shunts (makeCsh s) :=
  ⟨buildC_incidenceOk _ _ hg, buildC_incidenceOk _ _ hl,
    buildC_incidenceOk _ _ hsh⟩

/-- Concrete topology used by witnesses: two buses, one in-service line,
one in-service generator on bus 1, one out-of-service generator on bus 0,
one load and one shunt. -/
def sysW : System :=
  { nb := 2
    lines := [⟨0, 1, 0, 1, 0, 0, 0, 1⟩]
    gens := [⟨1, 1⟩, ⟨0, 0⟩]
    loads := [⟨0, 1⟩]
    shunts := [⟨1, 1⟩] }

/-- C3 witness: the incidence-structure theorem applied to sysW and read
off on the four entries of the Cg matrix: the in-service generator on bus 1
puts its single 1 in row 1 of column 0, and the out-of-service generator
leaves column 1 all zero. -/
theorem c3_incidence_structure_witness :
    Mat.get (makeCg sysW) 1 0 = 1 ∧ Mat.get (makeCg sysW) 0 0 = 0 ∧
    Mat.get (makeCg sysW) 0 1 = 0 ∧ Mat.get (makeCg sysW) 1 1 = 0 := by
  have h := c3_incidence_structure sysW
    (by
      intro d hd
      simp only [sysW, List.mem_cons, List.not_mem_nil, or_false] at hd
      rcases hd with rfl | rfl <;> simp [sysW])
    (by
      intro d hd
      simp only [sysW, List.mem_cons, List.not_mem_nil, or_false] at hd
      rcases hd with rfl
      simp [sysW])
    (by
      intro d hd
      simp only [sysW, List.mem_cons, List.not_mem_nil, or_false] at hd
      rcases hd with rfl
      simp [sysW])
  obtain ⟨⟨-, -, hcol⟩, -, -⟩ := h
  have hd0 : sysW.gens.getD 0 ⟨0, 0⟩ = ⟨1, 1⟩ := rfl
  have hd1 : sysW.gens.getD 1 ⟨0, 0⟩ = ⟨0, 0⟩ := rfl
  have h0 := (hcol 0 (by simp [sysW])).1 (by rw [hd0]; norm_num)
  have h1 := (hcol 1 (by simp [sysW])).2 (by rw [hd1])
  rw [hd0] at h0
  refine ⟨h0.2.1, ?_, ?_, ?_⟩
  · exact h0.2.2 0 (by simp [sysW]) (by simp)
  · exact h1 0 (by simp [sysW])
  · exact h1 1 (by simp [sysW])

/-- C8: the stored CftT has shape (nl, nb) and equals, entry for entry, the
transpose of the stored Cft. -/
theorem c8_cftT_is_transpose (s : System) :
    (makeCftT s).length = s.lines.length ∧
    (∀ row ∈ makeCftT s, row.length = s.nb) ∧
    ∀ i j, i < s.lines.length → j < s.nb →
      Mat.get (makeCftT s) i j = Mat.get (makeCft s) j i := by
  refine ⟨transposeMat_length _ _ _, transposeMat_row_length _ _ _, ?_⟩
  intro i j hi hj
  exact Mat.get_transposeMat s.nb s.lines.length (makeCft s) i j hi hj

/-- C8 witness: the transpose theorem applied to sysW, with the entry
equality read off at two concrete index pairs. -/
theorem c8_cftT_is_transpose_witness :
    Mat.get (makeCftT sysW) 0 1 = Mat.get (makeCft sysW) 1 0 ∧
    Mat.get (makeCftT sysW) 0 0 = Mat.get (makeCft sysW) 0 0 :=
  ⟨(c8_cftT_is_transpose sysW).2.2 0 1 (by simp [sysW]) (by simp [sysW]),
   (c8_cftT_is_transpose sysW).2.2 0 0 (by simp [sysW]) (by simp [sysW])⟩

/-- Container state of one MatProcessor instance: the stored raw value of
each matrix parameter, where none models a value never set, plus the status
flag set at the very end of a fully successful build. -/
structure MatState where
  Cg : Option Mat
  Cl : Option Mat
  Csh : Option Mat
  Cft : Option Mat
  CftT : Option Mat
  Bbus : Option Mat
  Bf : Option Mat
  Pbusinj : Option (List ℚ)
  Pfinj : Option (List ℚ)
  built : Bool
  deriving DecidableEq, Repr

/-- Guard of build_cg: idx2uid is applied to the hosting buses of the
in-service generators, and raises exactly when a reference does not resolve
to a dense bus position. -/
def cgOk (s : System) : Prop := ∀ d ∈ s.gens, d.u ≠ 0 → d.bus < s.nb

/-- Guard of build_cl. -/
def clOk (s : System) : Prop := ∀ d ∈ s.loads, d.u ≠ 0 → d.bus < s.nb

/-- Guard of build_csh. -/
def cshOk (s : System) : Prop := ∀ d ∈ s.shunts, d.u ≠ 0 → d.bus < s.nb

/-- Guard of build_cft: only the bus references of in-service lines are
resolved. -/
def cftOk (s : System) : Prop :=
  ∀ ln ∈ s.lines, ln.u ≠ 0 → ln.bus1 < s.nb ∧ ln.bus2 < s.nb

/-- Guard of _makeBdc: the bus references of every line are resolved, with
no in-service filtering. -/
def bdcOk (s : System) : Prop :=
  ∀ ln ∈ s.lines, ln.bus1 < s.nb ∧ ln.bus2 < s.nb

instance (s : System) : Decidable (cgOk s) :=
  inferInstanceAs (Decidable (∀ d ∈ s.gens, d.u ≠ 0 → d.bus < s.nb))

instance (s : System) : Decidable (clOk s) :=
  inferInstanceAs (Decidable (∀ d ∈ s.loads, d.u ≠ 0 → d.bus < s.nb))

instance (s : System) : Decidable (cshOk s) :=
  inferInstanceAs (Decidable (∀ d ∈ s.shunts, d.u ≠ 0 → d.bus < s.nb))

instance (s : System) : Decidable (cftOk s) :=
  inferInstanceAs
    (Decidable (∀ ln ∈ s.lines, ln.u ≠ 0 → ln.bus1 < s.nb ∧ ln.bus2 < s.nb))

instance (s : System) : Decidable (bdcOk s) :=
  inferInstanceAs (Decidable (∀ ln ∈ s.lines, ln.bus1 < s.nb ∧ ln.bus2 < s.nb))

/-- Sequential semantics of MatProcessor.build: each step stores its result
into the container state as soon as it succeeds, a failing step aborts the
call and leaves every remaining container as it was, the four _makeBdc
results are stored by one multiple assignment only after all of them have
been computed, and the status flag is set only after every step succeeded.
The Bool result is the success of the whole call. -/
def buildAll (s : System) (st : MatState) : MatState × Bool :=
  if cgOk s then
    let st1 : MatState := { st with Cg := some (makeCg s) }
    if clOk s then
      let st2 : MatState := { st1 with Cl := some (makeCl s) }
      if cshOk s then
        let st3 : MatState := { st2 with Csh := some (makeCsh s) }
        if cftOk s then
          let st4 : MatState :=
            { st3 with Cft := some (makeCft s), CftT := some (makeCftT s) }
          if bdcOk s then
            ({ st4 with
                Bbus := some (makeBbus s)
                Bf := some (makeBf s)
                Pbusinj := some (makePbusinj s)
                Pfinj := some (makePfinj s)
                built := true }, true)
          else (st4, false)
        else (st3, false)
      else (st2, false)
    else (st1, false)
  else (st, false)

/-- Container state after a fully successful build: every field is
overwritten with a value computed from the topology alone. -/
def builtState (s : System) : MatState :=
  { Cg := some (makeCg s), Cl := some (makeCl s), Csh := some (makeCsh s),
    Cft := some (makeCft s), CftT := some (makeCftT s),
    Bbus := some (makeBbus s), Bf := some (makeBf s),
    Pbusinj := some (makePbusinj s), Pfinj := some (makePfinj s),
    built := true }

lemma buildAll_success (s : System) (st : MatState)
    (h1 : cgOk s) (h2 : clOk s) (h3 : cshOk s) (h4 : cftOk s) (h5 : bdcOk s) :
    buildAll s st = (builtState s, true) := by
  simp [buildAll, h1, h2, h3, h4, h5, builtState]

/-- Topology whose single out-of-service line holds a dangling to-bus
reference: every connectivity step succeeds, then _makeBdc, which resolves
the buses of all lines with no in-service filtering, fails. -/
def sysBad : System :=
  { nb := 1
    lines := [⟨0, 5, 0, 1, 0, 0, 0, 0⟩]
    gens := [⟨0, 1⟩]
    loads := []
    shunts := [] }

/-- Container state before the failing build used as the C4 counterexample:
Cg still holds the snapshot of an earlier successful build. -/
def st0 : MatState :=
  { Cg := some [[42]], Cl := none, Csh := none, Cft := none, CftT := none,
    Bbus := none, Bf := none, Pbusinj := none, Pfinj := none, built := false }

lemma sysBad_cgOk : cgOk sysBad := by
  intro d hd
  simp only [sysBad, List.mem_cons, List.not_mem_nil, or_false] at hd
  subst hd
  intro _
  simp [sysBad]

lemma sysBad_clOk : clOk sysBad := by
  intro d hd
  simp [sysBad] at hd

lemma sysBad_cshOk : cshOk sysBad := by
  intro d hd
  simp [sysBad] at hd

lemma sysBad_cftOk : cftOk sysBad := by
  intro ln hln hu
  simp only [sysBad, List.mem_cons, List.not_mem_nil, or_false] at hln
  subst hln
  simp at hu

lemma sysBad_not_bdcOk : ¬ bdcOk sysBad := by
  intro h
  have h2 := (h ⟨0, 5, 0, 1, 0, 0, 0, 0⟩ (by simp [sysBad])).2
  simp [sysBad] at h2

/-- C4 counterexample: on sysBad the build fails in _makeBdc, yet the Cg
container no longer holds its pre-build value: the connectivity steps that
succeeded before the failure have already overwritten their containers, so
a failed build is not a rollback to the previous state. -/
theorem c4_counterexample :
    (buildAll sysBad st0).2 = false ∧
    st0.Cg = some [[42]] ∧
    (buildAll sysBad st0).1.Cg = some [[1]] ∧
    (buildAll sysBad st0).1.Cg ≠ st0.Cg := by
  have hb : buildAll sysBad st0 =
      ({ st0 with
          Cg := some (makeCg sysBad)
          Cl := some (makeCl sysBad)
          Csh := some (makeCsh sysBad)
          Cft := some (makeCft sysBad)
          CftT := some (makeCftT sysBad) }, false) := by
    simp [buildAll, sysBad_cgOk, sysBad_clOk, sysBad_cshOk, sysBad_cftOk,
      sysBad_not_bdcOk]
  have hcg : makeCg sysBad = [[1]] := by
    norm_num [makeCg, buildC, cooToDense, cooVal, sysBad, List.range_succ,
      List.filterMap, List.filter]
  rw [hb]
  refine ⟨rfl, rfl, by simp [hcg], ?_⟩
  simp only [hcg]
  intro hcontra
  simp [st0] at hcontra

/-- C4 amended: whenever any step of build fails, the four _makeBdc results
Bbus, Bf, Pbusinj and Pfinj still hold exactly their pre-build values, and
so does the status flag: that group is written atomically, all or none.
Containers of connectivity steps that succeeded before the failure, by
contrast, have already been overwritten. -/
theorem c4_dc_group_atomic (s : System) (st : MatState)
    (h : (buildAll s st).2 = false) :
    (buildAll s st).1.Bbus = st.Bbus ∧
    (buildAll s st).1.Bf = st.Bf ∧
    (buildAll s st).1.Pbusinj = st.Pbusinj ∧
    (buildAll s st).1.Pfinj = st.Pfinj ∧
    (buildAll s st).1.built = st.built := by
  unfold buildAll at h ⊢
  split_ifs at h ⊢ <;> simp_all

/-- C4 witness: the atomicity theorem applied to the failing build on
sysBad from the st0 snapshot. -/
theorem c4_dc_group_atomic_witness :
    (buildAll sysBad st0).1.Bbus = st0.Bbus ∧
    (buildAll sysBad st0).1.Bf = st0.Bf ∧
    (buildAll sysBad st0).1.Pbusinj = st0.Pbusinj ∧
    (buildAll sysBad st0).1.Pfinj = st0.Pfinj ∧
    (buildAll sysBad st0).1.built = st0.built :=
  c4_dc_group_atomic sysBad st0
    (by simp [buildAll, sysBad_cgOk, sysBad_clOk, sysBad_cshOk, sysBad_cftOk,
      sysBad_not_bdcOk])

/-- C9: a successful build fully determines every container from the
topology alone, so rebuilding from the resulting state reproduces exactly
the same state and the same success: two builds on an unchanged topology
agree bit for bit. -/
theorem c9_build_reproducible (s : System) (st : MatState)
    (h : (buildAll s st).2 = true) :
    buildAll s ((buildAll s st).1) = buildAll s st := by
  by_cases h1 : cgOk s
  · by_cases h2 : clOk s
    · by_cases h3 : cshOk s
      · by_cases h4 : cftOk s
        · by_cases h5 : bdcOk s
          · rw [buildAll_success s st h1 h2 h3 h4 h5]
            exact buildAll_success s (builtState s) h1 h2 h3 h4 h5
          · simp [buildAll, h1, h2, h3, h4, h5] at h
        · simp [buildAll, h1, h2, h3, h4] at h
      · simp [buildAll, h1, h2, h3] at h
    · simp [buildAll, h1, h2] at h
  · simp [buildAll, h1] at h

/-- Empty container state of a freshly constructed MatProcessor. -/
def stEmpty : MatState :=
  { Cg := none, Cl := none, Csh := none, Cft := none, CftT := none,
    Bbus := none, Bf := none, Pbusinj := none, Pfinj := none, built := false }

lemma sysW_cgOk : cgOk sysW := by
  intro d hd
  simp only [sysW, List.mem_cons, List.not_mem_nil, or_false] at hd
  rcases hd with rfl | rfl <;> simp [sysW]

lemma sysW_clOk : clOk sysW := by
  intro d hd
  simp only [sysW, List.mem_cons, List.not_mem_nil, or_false] at hd
  rcases hd with rfl
  simp [sysW]

lemma sysW_cshOk : cshOk sysW := by
  intro d hd
  simp only [sysW, List.mem_cons, List.not_mem_nil, or_false] at hd
  rcases hd with rfl
  simp [sysW]

lemma sysW_cftOk : cftOk sysW := by
  intro ln hln _
  simp only [sysW, List.mem_cons, List.not_mem_nil, or_false] at hln
  subst hln
  simp [sysW]

lemma sysW_bdcOk : bdcOk sysW := by
  intro ln hln
  simp only [sysW, List.mem_cons, List.not_mem_nil, or_false] at hln
  subst hln
  simp [sysW]

/-- C9 witness: the reproducibility theorem applied to a successful build
on sysW from the empty state. -/
theorem c9_build_reproducible_witness :
    buildAll sysW ((buildAll sysW stEmpty).1) = buildAll sysW stEmpty :=
  c9_build_reproducible sysW stEmpty
    (by simp [buildAll, sysW_cgOk, sysW_clOk, sysW_cshOk, sysW_cftOk,
      sysW_bdcOk])

/-- Raw stored value of an MParam: a dense 1-D array, a dense 2-D array,
or a scipy sparse matrix given by its dense content.  The Python attribute
may also be unset, which is modelled by wrapping Raw in Option below. -/
inductive Raw where
  | vecD : List ℚ → Raw
  | matD : Mat → Raw
  | sp : Mat → Raw
  deriving DecidableEq, Repr

/-- Matrix parameter MParam: metadata name, the storage-kind flag declared
at construction, and the raw stored value, with none for a value never
set. -/
structure MParam where
  name : String
  sparse : Bool
  _v : Option Raw
  deriving DecidableEq, Repr

/-- Dense view result: a numpy 0-d scalar, a 1-D vector, a 2-D array, or
the Python None object returned when the raw value was never set. -/
inductive Dview where
  | scalar : ℚ → Dview
  | vec : List ℚ → Dview
  | mat : Mat → Dview
  | null : Dview
  deriving DecidableEq, Repr

/-- Result of np.squeeze on a single-row 2-D array: every axis of size one
is removed, so a 1-by-1 array collapses to a 0-d scalar while a single row
of any other length becomes a 1-D vector. -/
def squeezeRow (r : List ℚ) : Dview :=
  if r.length = 1 then Dview.scalar (r.headD 0) else Dview.vec r

/-- Dense view of MParam.v: only a value that is an instance of a scipy
sparse class is densified, and squeezed when the dense result has exactly
one row; any other stored value, including the unset None, is returned
unchanged, and the declared storage-kind flag is never consulted. -/
def MParam.v (p : MParam) : Dview :=
  match p._v with
  | some (Raw.sp A) =>
      if A.length = 1 then squeezeRow (A.headD []) else Dview.mat A
  | some (Raw.matD A) => Dview.mat A
  | some (Raw.vecD w) => Dview.vec w
  | none => Dview.null

/-- Shape of the dense view, as MParam.shape reads self.v.shape: none
models the attribute error raised when the view is None. -/
def MParam.shape (p : MParam) : Option (List Nat) :=
  match p.v with
  | Dview.null => none
  | Dview.scalar _ => some []
  | Dview.vec w => some [w.length]
  | Dview.mat A => some [A.length, (A.headD []).length]

/-- Length of the dense view, as MParam.n reads len(self.v): none models
the type error raised by len on None or on a 0-d array. -/
def MParam.n (p : MParam) : Option Nat :=
  match p.v with
  | Dview.null => none
  | Dview.scalar _ => none
  | Dview.vec w => some w.length
  | Dview.mat A => some A.length

/-- C6 counterexample: the dense view of a never-set container returns the
None object as a perfectly ordinary value: the property is total, raises
nothing, and in particular signals no uninitialized-parameter error. -/
theorem c6_counterexample :
    MParam.v { name := "Bbus", sparse := true, _v := none } = Dview.null :=
  rfl

/-- C6 amended: reading the dense view of a never-set container returns
None without signaling any error; an error surfaces only afterwards, when
the shape or the length is derived from that None view. -/
theorem c6_uninit_view (p : MParam) (h : p._v = none) :
    MParam.v p = Dview.null ∧ MParam.shape p = none ∧ MParam.n p = none := by
  refine ⟨?_, ?_, ?_⟩ <;> simp [MParam.v, MParam.shape, MParam.n, h]

/-- C6 witness: the amended theorem applied to a concrete never-set
container. -/
theorem c6_uninit_view_witness :
    MParam.v { name := "Bbus", sparse := true, _v := none } = Dview.null ∧
    MParam.shape { name := "Bbus", sparse := true, _v := none } = none ∧
    MParam.n { name := "Bbus", sparse := true, _v := none } = none :=
  c6_uninit_view { name := "Bbus", sparse := true, _v := none } rfl

/-- Container holding a 1-by-1 sparse matrix, used by the C7
counterexample. -/
def p11 : MParam := { name := "Pf", sparse := true, _v := some (Raw.sp [[5]]) }

/-- C7 counterexample: a sparse stored value with exactly one row and one
column does not yield a 1-D vector: np.squeeze removes both unit axes and
the view degenerates to a 0-d scalar. -/
theorem c7_counterexample :
    MParam.v p11 = Dview.scalar 5 ∧ MParam.v p11 ≠ Dview.vec [5] := by
  constructor
  · rfl
  · intro hcontra
    rw [show MParam.v p11 = Dview.scalar 5 from rfl] at hcontra
    exact Dview.noConfusion hcontra

/-- C7 amended: a sparse stored value with exactly one row squeezes to a
1-D vector when that row does not have exactly one entry, and to a 0-d
scalar when it does; a sparse value with any other row count yields the
full 2-D dense array; a dense stored value is returned unchanged. -/
theorem c7_dense_view (p : MParam) (A : Mat) (w : List ℚ) :
    (p._v = some (Raw.sp A) → A.length = 1 → (A.headD []).length ≠ 1 →
      MParam.v p = Dview.vec (A.headD [])) ∧
    (p._v = some (Raw.sp A) → A.length = 1 → (A.headD []).length = 1 →
      MParam.v p = Dview.scalar ((A.headD []).headD 0)) ∧
    (p._v = some (Raw.sp A) → A.length ≠ 1 → MParam.v p = Dview.mat A) ∧
    (p._v = some (Raw.matD A) → MParam.v p = Dview.mat A) ∧
    (p._v = some (Raw.vecD w) → MParam.v p = Dview.vec w) := by
  refine ⟨?_, ?_, ?_, ?_, ?_⟩
  · intro hv h1 hr
    unfold MParam.v
    rw [hv]
    simp only [h1, if_true]
    unfold squeezeRow
    rw [if_neg hr]
  · intro hv h1 hr
    unfold MParam.v
    rw [hv]
    simp only [h1, if_true]
    unfold squeezeRow
    rw [if_pos hr]
  · intro hv h1
    unfold MParam.v
    rw [hv]
    simp only [h1, if_false]
  · intro hv
    unfold MParam.v
    rw [hv]
  · intro hv
    unfold MParam.v
    rw [hv]

/-- C7 witness: the dense-view theorem applied to three concrete
containers, one per interesting branch. -/
theorem c7_dense_view_witness :
    MParam.v { name := "a", sparse := true, _v := some (Raw.sp [[1, 2]]) } =
      Dview.vec [1, 2] ∧
    MParam.v { name := "b", sparse := true, _v := some (Raw.sp [[1], [2]]) } =
      Dview.mat [[1], [2]] ∧
    MParam.v { name := "c", sparse := false, _v := some (Raw.vecD [3]) } =
      Dview.vec [3] :=
  ⟨(c7_dense_view { name := "a", sparse := true, _v := some (Raw.sp [[1, 2]]) }
      [[1, 2]] []).1 rfl rfl (by simp),
   (c7_dense_view { name := "b", sparse := true, _v := some (Raw.sp [[1], [2]]) }
      [[1], [2]] []).2.2.1 rfl (by simp),
   (c7_dense_view { name := "c", sparse := false, _v := some (Raw.vecD [3]) }
      [] [3]).2.2.2.2 rfl⟩

/-- C10: the declared storage-kind flag is never consulted by any read:
the dense view, the shape and the length of two containers holding the
same raw value agree whatever their flags and names, and a dense array
stored in a sparse-declared container is returned unchanged, so the
mismatch is not detected. -/
theorem c10_sparse_flag_ignored (nm nm2 : String) (fl fl2 : Bool)
    (v : Option Raw) (A : Mat) (w : List ℚ) :
    MParam.v { name := nm, sparse := fl, _v := v } =
      MParam.v { name := nm2, sparse := fl2, _v := v } ∧
    MParam.shape { name := nm, sparse := fl, _v := v } =
      MParam.shape { name := nm2, sparse := fl2, _v := v } ∧
    MParam.n { name := nm, sparse := fl, _v := v } =
      MParam.n { name := nm2, sparse := fl2, _v := v } ∧
    MParam.v { name := nm, sparse := true, _v := some (Raw.matD A) } =
      Dview.mat A ∧
    MParam.v { name := nm, sparse := true, _v := some (Raw.vecD w) } =
      Dview.vec w := by
  refine ⟨rfl, rfl, rfl, rfl, rfl⟩

end AMS
